import Mathlib

/-!
# store: a type-erased key-value container with a reflective Bind

A shallow embedding of `store/lib.go`.  The Go program stores `interface{}`
values in a `map[interface{}]interface{}` and copies them out through
`reflect`.  The embedding therefore has three layers:

* a fragment of Go's dynamically typed values (`GoValue`): the nil interface,
  values of the predeclared boolean, integer, `float64` and string types, of
  the map type of the store, of pointer, slice and struct types, each possibly
  under a defined (named) type;
* the built-in map, as an association list searched with Go's `==` on
  interface values, with the two run-time panics of the map (an unhashable key,
  an assignment to a nil map);
* the part of `reflect` that `Bind` calls: `ValueOf`, `Kind`, `IsNil`, `Elem`,
  `Type`, `Set`, with their panics.

A call that panics evaluates to `Except.error`, a call that returns to
`Except.ok`.  Methods with a pointer receiver take the store and return the
store they leave behind; `Bind` also threads the memory its destination
points into.  For the question whether a read can change the store, the
`Store` variable itself is placed in a memory of slots (`Memory`) in which
variables nest, so that the destination of `Bind` can point to the store or
to a variable that contains it; `Bind` on that memory agrees with `Bind` on
the store (`mbind_agrees`).
-/

namespace store

/-! ## Types and kinds -/

/-- The constants of `reflect.Kind`, in the order of the `reflect` package. -/
inductive Kind where
  | Invalid | Bool | Int | Int8 | Int16 | Int32 | Int64
  | Uint | Uint8 | Uint16 | Uint32 | Uint64 | Uintptr
  | Float32 | Float64 | Complex64 | Complex128
  | Array | Chan | Func | Interface | Map | Ptr | Slice | String | Struct
  | UnsafePointer
  deriving DecidableEq, Repr

/-- The types a plain value or a struct field has in the fragment: the
predeclared types (`float32` and the complex types are left out) and `map`,
the type `map[interface{}]interface{}` of the field of `Store`. -/
inductive Basic where
  | bool | int | int8 | int16 | int32 | int64
  | uint | uint8 | uint16 | uint32 | uint64 | uintptr
  | float64 | string | map
  deriving DecidableEq, Repr

/-- The kind of a predeclared type. -/
def Basic.Kind : Basic → Kind
  | .bool => .Bool | .int => .Int | .int8 => .Int8 | .int16 => .Int16
  | .int32 => .Int32 | .int64 => .Int64
  | .uint => .Uint | .uint8 => .Uint8 | .uint16 => .Uint16
  | .uint32 => .Uint32 | .uint64 => .Uint64 | .uintptr => .Uintptr
  | .float64 => .Float64 | .string => .String | .map => .Map

/-- The name a predeclared type prints as, and the literal of the map type. -/
def Basic.String : Basic → String
  | .bool => "bool" | .int => "int" | .int8 => "int8" | .int16 => "int16"
  | .int32 => "int32" | .int64 => "int64"
  | .uint => "uint" | .uint8 => "uint8" | .uint16 => "uint16"
  | .uint32 => "uint32" | .uint64 => "uint64" | .uintptr => "uintptr"
  | .float64 => "float64" | .string => "string"
  | .map => "map[interface \x7b\x7d]interface \x7b\x7d"

/-- A Go type: an underlying shape and, for a defined type (`type N shape`),
its package-qualified name.  `name = none` is the type literal itself (for
`basic`, the predeclared type).  Two Go types are identical exactly when
their descriptions are equal.  Struct fields have a type of `Basic`. -/
inductive GoType where
  | basic (name : Option String) (b : Basic)
  | ptr (name : Option String) (elem : GoType)
  | slice (name : Option String) (elem : GoType)
  | struct (name : Option String) (fields : List (String × Basic))
  | iface (name : Option String)
  deriving DecidableEq, Repr

namespace GoType

/-- The method `Kind` of `reflect.Type`. -/
def Kind : GoType → store.Kind
  | basic _ b => b.Kind
  | ptr _ _ => .Ptr
  | slice _ _ => .Slice
  | struct _ _ => .Struct
  | iface _ => .Interface

/-- Whether the type has a name: every predeclared type has, a type literal
(the map type included) has not, a defined type has. -/
def HasName : GoType → Bool
  | basic n b => n.isSome || decide (b ≠ .map)
  | ptr n _ => n.isSome
  | slice n _ => n.isSome
  | struct n _ => n.isSome
  | iface n => n.isSome

/-- The underlying type: the same shape without the defined name. -/
def underlying : GoType → GoType
  | basic _ b => basic none b
  | ptr _ e => ptr none e
  | slice _ e => slice none e
  | struct _ fs => struct none fs
  | iface _ => iface none

/-- The element type of a pointer or slice type (`Type.Elem`). -/
def Elem : GoType → Option GoType
  | ptr _ e => some e
  | slice _ e => some e
  | _ => none

/-- Whether values of the type can be hashed as map keys: all but slices,
maps and structs with a map field. -/
def hashable : GoType → Bool
  | slice _ _ => false
  | basic _ b => decide (b ≠ .map)
  | struct _ fs => fs.all (fun f => decide (f.2 ≠ .map))
  | _ => true

end GoType

/-- The kinds `Bool` to `Complex128`, `String` and `UnsafePointer`: types of
these kinds have the predeclared type of the kind as underlying type. -/
def nonComposite : Kind → Bool
  | .Bool | .Int | .Int8 | .Int16 | .Int32 | .Int64
  | .Uint | .Uint8 | .Uint16 | .Uint32 | .Uint64 | .Uintptr
  | .Float32 | .Float64 | .Complex64 | .Complex128
  | .String | .UnsafePointer => true
  | _ => false

/-- The check `haveIdenticalUnderlyingType` of `reflect`. -/
def haveIdenticalUnderlyingType (T V : GoType) : Bool :=
  if T = V then true
  else if T.Kind ≠ V.Kind then false
  else if nonComposite T.Kind then true
  else decide (T.underlying = V.underlying)

/-- The check `directlyAssignable` of `reflect`: a value of type `V` can be
stored as it is in a variable of type `T`. -/
def directlyAssignable (T V : GoType) : Bool :=
  if T = V then true
  else if (T.HasName && V.HasName) || decide (T.Kind ≠ V.Kind) then false
  else haveIdenticalUnderlyingType T V

/-! ## Values -/

/-- The data of a value of a type of `Basic`.  A `float64` is its IEEE-754
bit pattern; a map is the reference to its map object (`0` is the nil map). -/
inductive Prim where
  | bool (b : Bool)
  | int (i : Int)
  | float (bits : Nat)
  | str (s : String)
  | ref (addr : Nat)
  deriving DecidableEq, Repr

/-- The data of a value: a predeclared value, a pointer (address `0` is the
nil pointer), a slice header, or the fields of a struct. -/
inductive Data where
  | prim (p : Prim)
  | ptr (addr : Nat)
  | slice (addr len cap : Nat)
  | struct (fields : List Prim)
  deriving DecidableEq, Repr

/-- An `interface{}` value: the nil interface, or a dynamic type with data. -/
inductive GoValue where
  | nil
  | val (t : GoType) (d : Data)
  deriving DecidableEq, Repr

/-- Whether a `float64` bit pattern is a NaN: exponent all ones, fraction not
zero. -/
def f64IsNaN (bits : Nat) : Bool :=
  (bits / 2 ^ 52) % 2 ^ 11 == 2047 && bits % 2 ^ 52 != 0

/-- Whether a `float64` bit pattern is `+0` or `-0`. -/
def f64IsZero (bits : Nat) : Bool :=
  bits % 2 ^ 63 == 0

/-- The operator `==` on `float64`: a NaN equals nothing, the two zeros are
equal, any other two values are equal when their bits are. -/
def f64Eq (a b : Nat) : Bool :=
  !f64IsNaN a && !f64IsNaN b &&
    (a % 2 ^ 64 == b % 2 ^ 64 || (f64IsZero a && f64IsZero b))

/-- The operator `==` on the data of two values of one predeclared type. -/
def Prim.eq : Prim → Prim → Bool
  | .bool a, .bool b => a == b
  | .int a, .int b => a == b
  | .float a, .float b => f64Eq a b
  | .str a, .str b => a == b
  | _, _ => false

/-- Field by field `==` of two structs. -/
def fieldsEq : List Prim → List Prim → Bool
  | [], [] => true
  | a :: as, b :: bs => a.eq b && fieldsEq as bs
  | _, _ => false

/-- The operator `==` on the data of two values of one comparable type. -/
def Data.eq : Data → Data → Bool
  | .prim a, .prim b => a.eq b
  | .ptr a, .ptr b => a == b
  | .struct fs, .struct gs => fieldsEq fs gs
  | _, _ => false

namespace GoValue

/-- Whether the map can hash the value as a key: the nil interface can, a
value of a slice type, of a map type or of a struct type with a map field
cannot. -/
def hashable : GoValue → Bool
  | nil => true
  | val t _ => t.hashable

/-- The operator `==` on two hashable interface values, as the map applies it
to its keys: identical dynamic types and equal data. -/
def keyEq : GoValue → GoValue → Bool
  | nil, nil => true
  | val t d, val u e => decide (t = u) && d.eq e
  | _, _ => false

end GoValue

/-- Whether the data of a predeclared value fits the predeclared type. -/
def Prim.fits : Prim → Basic → Bool
  | .bool _, .bool => true
  | .int i, .int => decide (-(2 ^ 63 : Int) ≤ i ∧ i < 2 ^ 63)
  | .int i, .int8 => decide (-(2 ^ 7 : Int) ≤ i ∧ i < 2 ^ 7)
  | .int i, .int16 => decide (-(2 ^ 15 : Int) ≤ i ∧ i < 2 ^ 15)
  | .int i, .int32 => decide (-(2 ^ 31 : Int) ≤ i ∧ i < 2 ^ 31)
  | .int i, .int64 => decide (-(2 ^ 63 : Int) ≤ i ∧ i < 2 ^ 63)
  | .int i, .uint => decide (0 ≤ i ∧ i < 2 ^ 64)
  | .int i, .uint8 => decide (0 ≤ i ∧ i < 2 ^ 8)
  | .int i, .uint16 => decide (0 ≤ i ∧ i < 2 ^ 16)
  | .int i, .uint32 => decide (0 ≤ i ∧ i < 2 ^ 32)
  | .int i, .uint64 => decide (0 ≤ i ∧ i < 2 ^ 64)
  | .int i, .uintptr => decide (0 ≤ i ∧ i < 2 ^ 64)
  | .float bits, .float64 => decide (bits < 2 ^ 64)
  | .str _, .string => true
  | .ref _, .map => true
  | _, _ => false

/-- Whether the fields of a struct value fit the fields of a struct type. -/
def fieldsFit : List Prim → List (String × Basic) → Bool
  | [], [] => true
  | p :: ps, f :: fs => p.fits f.2 && fieldsFit ps fs
  | _, _ => false

/-- Whether an interface value is one a Go program can hold: its data has the
shape of its dynamic type, and that type is not an interface type. -/
def GoValue.wellFormed : GoValue → Bool
  | .nil => true
  | .val (.basic _ b) (.prim p) => p.fits b
  | .val (.ptr _ _) (.ptr _) => true
  | .val (.slice _ _) (.slice addr len cap) =>
      decide (len ≤ cap) && (addr != 0 || cap == 0)
  | .val (.struct _ fs) (.struct ps) => fieldsFit ps fs
  | _ => false

/-! ## Panics and memory -/

/-- What a Go call that does not return was aborted with. -/
inductive Panic where
  /-- The run-time error `hash of unhashable type`, on using the key in a map. -/
  | unhashable (key : GoValue)
  /-- The run-time error `assignment to entry in nil map`. -/
  | nilMapAssign
  /-- A `reflect.ValueError`: the method was called on a Value of the kind. -/
  | valueError (method : String) (kind : Kind)
  /-- The panic of `reflect.Value.Set` on a Value that is not addressable. -/
  | unaddressable
  /-- The panic of `reflect.Set`: a value of type `V` is not assignable to
  type `T`. -/
  | notAssignable (V T : GoType)
  /-- The panic of `MustGet`, carrying `KeyNotExistError{Key: key}`. -/
  | keyNotExist (key : GoValue)
  /-- The run-time error `invalid memory address or nil pointer dereference`,
  on a receiver that does not point to a `Store`. -/
  | nilDereference
  deriving DecidableEq, Repr

/-- Equality of two outcomes is decidable. -/
instance instDecidableEqOutcome {ε α : Type} [DecidableEq ε] [DecidableEq α] :
    DecidableEq (Except ε α) := fun a b =>
  match a, b with
  | .ok x, .ok y =>
      if h : x = y then isTrue (by rw [h]) else isFalse (fun e => h (by cases e; rfl))
  | .error x, .error y =>
      if h : x = y then isTrue (by rw [h]) else isFalse (fun e => h (by cases e; rfl))
  | .ok _, .error _ => isFalse (fun e => by cases e)
  | .error _, .ok _ => isFalse (fun e => by cases e)

/-- The memory pointers point into: the variable at each address, as the
interface value reading it gives.  Each address stands for one whole variable
here; variables that lie inside one another are in `Memory`. -/
abbrev Heap := Nat → GoValue

/-- The memory after writing `g` to the variable at `a`. -/
def Heap.store (h : Heap) (a : Nat) (g : GoValue) : Heap :=
  fun b => if b = a then g else h b

/-! ## The built-in map -/

/-- The entries of a map, in the order a `range` loop visits them. -/
abbrev Entries := List (GoValue × GoValue)

/-- A value of type `map[interface{}]interface{}`: `none` is the nil map. -/
abbrev GoMap := Option Entries

/-- The value of the first entry whose key `==` the key looked up. -/
def lookup : Entries → GoValue → Option GoValue
  | [], _ => none
  | (k1, v1) :: es, k => if k1.keyEq k then some v1 else lookup es k

/-- The entries after `m[k] = v`: the entry whose key `==` k is overwritten
(key and value), or a new entry is added. -/
def assign : Entries → GoValue → GoValue → Entries
  | [], k, v => [(k, v)]
  | (k1, v1) :: es, k, v =>
      if k1.keyEq k then (k, v) :: es else (k1, v1) :: assign es k v

/-- No two keys of the entries are `==`. -/
def keysDistinct : Entries → Bool
  | [] => true
  | e :: es => es.all (fun f => !e.1.keyEq f.1) && keysDistinct es

/-- Whether the entries are those of a map a Go program can hold: every key
was hashed, every key and value is well formed, and no two keys are `==`. -/
def Entries.wellFormed (es : Entries) : Bool :=
  es.all (fun e => e.1.hashable && e.1.wellFormed && e.2.wellFormed) &&
    keysDistinct es

namespace GoMap

/-- The built-in `len` of a map: `0` for the nil map. -/
def len : GoMap → Nat
  | none => 0
  | some es => es.length

/-- Whether the map is one a Go program can hold. -/
def wellFormed : GoMap → Bool
  | none => true
  | some es => es.wellFormed

/-- The two-result index expression `v, ok = m[k]`: panics on an unhashable key
(also on the nil or empty map), gives `(nil, false)` on a missing key. -/
def access (m : GoMap) (k : GoValue) : Except Panic (GoValue × Bool) :=
  if k.hashable then
    match m with
    | none => .ok (.nil, false)
    | some es =>
        match lookup es k with
        | some v => .ok (v, true)
        | none => .ok (.nil, false)
  else .error (.unhashable k)

/-- The assignment `m[k] = v`: panics on the nil map, then on an unhashable
key. -/
def assign (m : GoMap) (k v : GoValue) : Except Panic GoMap :=
  match m with
  | none => .error .nilMapAssign
  | some es =>
      if k.hashable then .ok (some (store.assign es k v))
      else .error (.unhashable k)

end GoMap

/-! ## The part of reflect that Bind uses -/

/-- A `reflect.Value`: the zero Value, a value taken out of an interface, or
the variable of type `t` at an address (addressable and settable). -/
inductive Value where
  | zero
  | of (t : GoType) (d : Data)
  | var (t : GoType) (addr : Nat)
  deriving DecidableEq, Repr

/-- The function `reflect.ValueOf`: the zero Value for the nil interface. -/
def ValueOf : GoValue → Value
  | .nil => .zero
  | .val t d => .of t d

/-- The address in pointer, slice or map data (`0` for other data). -/
def Data.addr : Data → Nat
  | .ptr a => a
  | .slice a _ _ => a
  | .prim (.ref a) => a
  | _ => 0

namespace Value

/-- The method `Kind`: `Invalid` for the zero Value. -/
def Kind : Value → store.Kind
  | zero => .Invalid
  | of t _ => t.Kind
  | var t _ => t.Kind

/-- The method `Type` (a keyword here, hence `Typ`): panics on the zero
Value. -/
def Typ : Value → Except Panic GoType
  | zero => .error (.valueError "reflect.Value.Type" .Invalid)
  | of t _ => .ok t
  | var t _ => .ok t

/-- The interface value a Value holds (`nil` for the zero Value). -/
def load (h : Heap) : Value → GoValue
  | zero => .nil
  | of t d => .val t d
  | var _ a => h a

/-- The method `IsNil`: panics unless the kind is one with a nil value. -/
def IsNil (h : Heap) (v : Value) : Except Panic Bool :=
  match v.Kind with
  | .Ptr | .Slice | .Chan | .Func | .Map | .UnsafePointer | .Interface =>
      match v.load h with
      | .nil => .ok true
      | .val _ d => .ok (d.addr == 0)
  | k => .error (.valueError "reflect.Value.IsNil" k)

/-- The method `Elem`: the variable a pointer points to (the zero Value for
a nil pointer), or the value in an interface; panics on any other kind. -/
def Elem (h : Heap) (v : Value) : Except Panic Value :=
  match v.Kind with
  | .Ptr =>
      match v.load h with
      | .val t d =>
          match t.Elem with
          | some e => if d.addr = 0 then .ok zero else .ok (var e d.addr)
          | none => .ok zero
      | .nil => .ok zero
  | .Interface => .ok (ValueOf (v.load h))
  | k => .error (.valueError "reflect.Value.Elem" k)

/-- The value as stored in a variable of type `T`: the same data under the
type `T`, or the interface value itself when `T` is an interface type. -/
def retag (T : GoType) : GoValue → GoValue
  | .nil => .nil
  | .val t d => if T.Kind = .Interface then .val t d else .val T d

/-- The method `Set`: `v` must be addressable, `x` must not be the zero
Value, and the type of `x` must be assignable to the type of `v` (directly,
or because the type of `v` is an interface that `x` implements; every type
implements the empty interface). -/
def Set (h : Heap) (v x : Value) : Except Panic Heap :=
  match v with
  | zero => .error (.valueError "reflect.Value.Set" .Invalid)
  | of _ _ => .error .unaddressable
  | var T a =>
      match x.Typ with
      | .error _ => .error (.valueError "reflect.Value.Set" .Invalid)
      | .ok V =>
          if directlyAssignable T V then .ok (h.store a (retag T (x.load h)))
          else if T.Kind = .Interface then .ok (h.store a (x.load h))
          else .error (.notAssignable V T)

end Value

/-! ## The store -/

/-- An `InvalidBindError`: the Value of the destination passed to `Bind`. -/
structure InvalidBindError where
  Val : Value
  deriving DecidableEq, Repr

/-- A `KeyNotExistError`: the key that was not found. -/
structure KeyNotExistError where
  Key : GoValue
  deriving DecidableEq, Repr

/-- A `BindTypeNotMatchError`: the type of the destination variable and the
type of the stored value. -/
structure BindTypeNotMatchError where
  Expect : GoType
  Actual : GoType
  deriving DecidableEq, Repr

/-- A non-nil `error` returned by `Bind`: a pointer to one of the three error
structs. -/
inductive BindError where
  | keyNotExist (e : KeyNotExistError)
  | invalidBind (e : InvalidBindError)
  | typeNotMatch (e : BindTypeNotMatchError)
  deriving DecidableEq, Repr

/-- The struct `Store`: its field `s` is the backing map. -/
structure Store where
  s : GoMap
  deriving DecidableEq, Repr

/-- The function `New`: a store with an allocated, empty map. -/
def New : Store := { s := some [] }

namespace Store

/-- The method `Add`: `s.s[k] = v`, returning the store. -/
def Add (s : Store) (k v : GoValue) : Except Panic Store :=
  match s.s.assign k v with
  | .ok m => .ok { s := m }
  | .error p => .error p

/-- The loop `for k, v := range vs { s.Add(k, v) }`, visiting the entries in
the order of the list. -/
def addAll (s : Store) : Entries → Except Panic Store
  | [] => .ok s
  | (k, v) :: es =>
      match s.Add k v with
      | .ok s1 => addAll s1 es
      | .error p => .error p

/-- The method `Append`: nothing for a map of length 0, else `Add` for each
entry. -/
def Append (s : Store) (vs : GoMap) : Except Panic Store :=
  if vs.len = 0 then .ok s
  else
    match vs with
    | none => .ok s
    | some es => s.addAll es

/-- The method `With`: nothing for a map of length 0, else the map becomes
the backing map. -/
def With (s : Store) (vs : GoMap) : Store :=
  if vs.len = 0 then s else { s := vs }

/-- The method `Get`: `v, ok = s.s[k]`. -/
def Get (s : Store) (k : GoValue) : Except Panic (GoValue × Bool) :=
  s.s.access k

/-- The method `Underlying`: the backing map. -/
def Underlying (s : Store) : GoMap := s.s

/-- The method `MustGet`: the value, or a panic with the key when `Get` does
not find it. -/
def MustGet (s : Store) (k : GoValue) : Except Panic GoValue :=
  match s.Get k with
  | .error p => .error p
  | .ok (v, ok) => if !ok then .error (.keyNotExist k) else .ok v

/-- The method `Bind`, on the memory `h`: the error returned (`none` is the
nil error) and the memory afterwards. -/
def Bind (s : Store) (k v : GoValue) (h : Heap) :
    Except Panic (Option BindError × Heap) :=
  match s.Get k with
  | .error p => .error p
  | .ok (val, ok) =>
      if !ok then .ok (some (.keyNotExist { Key := k }), h)
      else
        let rv := ValueOf v
        match (if rv.Kind ≠ .Ptr then .ok true else rv.IsNil h) with
        | .error p => .error p
        | .ok true => .ok (some (.invalidBind { Val := rv }), h)
        | .ok false =>
            let rVal := ValueOf val
            match rv.Elem h with
            | .error p => .error p
            | .ok el =>
                if el.Kind ≠ rVal.Kind then
                  match el.Typ with
                  | .error p => .error p
                  | .ok expect =>
                      match rVal.Typ with
                      | .error p => .error p
                      | .ok actual =>
                          .ok (some (.typeNotMatch
                            { Expect := expect, Actual := actual }), h)
                else
                  match el.Set h rVal with
                  | .error p => .error p
                  | .ok h1 => .ok (none, h1)

end Store

/-! ## The error messages -/

/-- The fields of a struct type literal, as `Type.String` prints them. -/
def fieldsString : List (String × Basic) → String
  | [] => ""
  | [f] => f.1 ++ " " ++ f.2.String
  | f :: g :: fs => f.1 ++ " " ++ f.2.String ++ "; " ++ fieldsString (g :: fs)

/-- The method `String` of `reflect.Type`: the qualified name of a defined
type, else the type literal. -/
def GoType.String : GoType → String
  | .basic (some n) _ => n
  | .basic none b => b.String
  | .ptr (some n) _ => n
  | .ptr none e => "*" ++ e.String
  | .slice (some n) _ => n
  | .slice none e => "[]" ++ e.String
  | .struct (some n) _ => n
  | .struct none [] => "struct \x7b\x7d"
  | .struct none (f :: fs) => "struct \x7b " ++ fieldsString (f :: fs) ++ " \x7d"
  | .iface (some n) => n
  | .iface none => "interface \x7b\x7d"

/-- The call `fmt.Sprintf("Store: Bind(%s)", x)` on a string `x`. -/
def bindTpl (x : String) : String := "Store: Bind(" ++ x ++ ")"

/-- The method `Error` of `InvalidBindError`. -/
def InvalidBindError.Error (e : InvalidBindError) : Except Panic String :=
  if e.Val.Kind = .Invalid then .ok (bindTpl "nil")
  else if e.Val.Kind ≠ .Ptr then
    match e.Val.Typ with
    | .error p => .error p
    | .ok t => .ok (bindTpl ("non-pointer " ++ t.String))
  else
    match e.Val.Typ with
    | .error p => .error p
    | .ok t => .ok (bindTpl (t.String ++ " pointer is nil"))

/-- The method `Error` of `BindTypeNotMatchError`. -/
def BindTypeNotMatchError.Error (e : BindTypeNotMatchError) : String :=
  "expect type: " ++ e.Expect.String ++ ", actual type: " ++ e.Actual.String

/-! ## The store as a variable in memory

The receiver of every method is a pointer to a `Store` variable, and the
destination of `Bind` is a pointer too.  Here both point into one memory of
slots.  A variable of a struct type occupies one slot for each field, in
order, so that the address of a field lies inside the variable that encloses
it; any other variable occupies one slot.  A `Store` has the one field `s`,
so it occupies one slot, as a variable of its own or as a field of a larger
struct variable. -/

/-- The struct type `Store` of the package. -/
def tStore : GoType := .struct (some "store.Store") [("s", .map)]

/-- What one slot of the memory holds: a value of a type of `Basic` (for a map
its reference), a pointer, a slice header, or the content of a variable of
interface type. -/
inductive Word where
  | prim (p : Prim)
  | ptr (a : Nat)
  | slice (addr len cap : Nat)
  | iface (g : GoValue)
  deriving DecidableEq, Repr

/-- The number of slots of a variable of the type. -/
def GoType.size : GoType → Nat
  | .struct _ fs => fs.length
  | _ => 1

/-- The slots of the data of a value, field by field. -/
def Data.words : Data → List Word
  | .prim p => [.prim p]
  | .ptr a => [.ptr a]
  | .slice a l c => [.slice a l c]
  | .struct fs => fs.map .prim

/-- The slots of a variable of type `T` that holds `g`: the interface value
itself for an interface type, else the data of `g`, as many slots as `T`
has. -/
def wordsAt (T : GoType) (g : GoValue) : List Word :=
  if T.Kind = .Interface then [.iface g]
  else
    match g with
    | .nil => []
    | .val _ d => d.words.take T.size

/-- The slots after writing the words from address `a` on. -/
def writeWords (sl : Nat → Word) : Nat → List Word → Nat → Word
  | _, [] => sl
  | a, w :: ws => writeWords (fun b => if b = a then w else sl b) (a + 1) ws

/-- The `n` field values in the slots from address `a` on. -/
def readPrims (sl : Nat → Word) : Nat → Nat → List Prim
  | _, 0 => []
  | a, n + 1 =>
      (match sl a with
        | .prim p => p
        | _ => .int 0) :: readPrims sl (a + 1) n

/-- The slots, and the map object behind each map reference other than
`0`. -/
structure Memory where
  slots : Nat → Word
  maps : Nat → Entries

namespace Memory

/-- The variable of type `T` at address `a`, as the interface value reading
it gives. -/
def read (m : Memory) (T : GoType) (a : Nat) : GoValue :=
  match T with
  | .iface _ =>
      match m.slots a with
      | .iface g => g
      | _ => .nil
  | .struct _ fs => .val T (.struct (readPrims m.slots a fs.length))
  | _ =>
      match m.slots a with
      | .prim p => .val T (.prim p)
      | .ptr x => .val T (.ptr x)
      | .slice x l c => .val T (.slice x l c)
      | .iface _ => .nil

/-- The memory after the variable of type `T` at address `a` has received
`g`. -/
def write (m : Memory) (T : GoType) (a : Nat) (g : GoValue) : Memory :=
  { m with slots := writeWords m.slots a (wordsAt T g) }

/-- The interface value a Value holds (`nil` for the zero Value). -/
def load (m : Memory) : Value → GoValue
  | .zero => .nil
  | .of t d => .val t d
  | .var T a => m.read T a

/-- The method `IsNil` of `reflect.Value`, on this memory. -/
def IsNil (m : Memory) (v : Value) : Except Panic Bool :=
  match v.Kind with
  | .Ptr | .Slice | .Chan | .Func | .Map | .UnsafePointer | .Interface =>
      match m.load v with
      | .nil => .ok true
      | .val _ d => .ok (d.addr == 0)
  | k => .error (.valueError "reflect.Value.IsNil" k)

/-- The method `Elem` of `reflect.Value`, on this memory. -/
def Elem (m : Memory) (v : Value) : Except Panic Value :=
  match v.Kind with
  | .Ptr =>
      match m.load v with
      | .val t d =>
          match t.Elem with
          | some e => if d.addr = 0 then .ok .zero else .ok (.var e d.addr)
          | none => .ok .zero
      | .nil => .ok .zero
  | .Interface => .ok (ValueOf (m.load v))
  | k => .error (.valueError "reflect.Value.Elem" k)

/-- The method `Set` of `reflect.Value`, on this memory: the variable `v`
receives `x`, slot by slot. -/
def Set (m : Memory) (v x : Value) : Except Panic Memory :=
  match v with
  | .zero => .error (.valueError "reflect.Value.Set" .Invalid)
  | .of _ _ => .error .unaddressable
  | .var T a =>
      match x.Typ with
      | .error _ => .error (.valueError "reflect.Value.Set" .Invalid)
      | .ok V =>
          if directlyAssignable T V then .ok (m.write T a (Value.retag T (m.load x)))
          else if T.Kind = .Interface then .ok (m.write T a (m.load x))
          else .error (.notAssignable V T)

/-- The `Store` whose field `s` is the slot `p`, when that slot holds a map. -/
def storeAt (m : Memory) (p : Nat) : Option Store :=
  match m.slots p with
  | .prim (.ref r) => some { s := if r = 0 then none else some (m.maps r) }
  | _ => none

/-- The method `Get` on the receiver `p`: the results and the memory
afterwards. -/
def Get (m : Memory) (p : Nat) (k : GoValue) :
    Except Panic ((GoValue × Bool) × Memory) :=
  match m.storeAt p with
  | none => .error .nilDereference
  | some s =>
      match s.Get k with
      | .error e => .error e
      | .ok r => .ok (r, m)

/-- The method `MustGet` on the receiver `p`: the result and the memory
afterwards. -/
def MustGet (m : Memory) (p : Nat) (k : GoValue) : Except Panic (GoValue × Memory) :=
  match m.storeAt p with
  | none => .error .nilDereference
  | some s =>
      match s.MustGet k with
      | .error e => .error e
      | .ok r => .ok (r, m)

/-- The method `Bind` on the receiver `p`: the error returned and the memory
afterwards. -/
def Bind (m : Memory) (p : Nat) (k v : GoValue) :
    Except Panic (Option BindError × Memory) :=
  match m.storeAt p with
  | none => .error .nilDereference
  | some s =>
      match s.Get k with
      | .error e => .error e
      | .ok (val, ok) =>
          if !ok then .ok (some (.keyNotExist { Key := k }), m)
          else
            let rv := ValueOf v
            match (if rv.Kind ≠ .Ptr then .ok true else m.IsNil rv) with
            | .error e => .error e
            | .ok true => .ok (some (.invalidBind { Val := rv }), m)
            | .ok false =>
                let rVal := ValueOf val
                match m.Elem rv with
                | .error e => .error e
                | .ok el =>
                    if el.Kind ≠ rVal.Kind then
                      match el.Typ with
                      | .error e => .error e
                      | .ok expect =>
                          match rVal.Typ with
                          | .error e => .error e
                          | .ok actual =>
                              .ok (some (.typeNotMatch
                                { Expect := expect, Actual := actual }), m)
                    else
                      match m.Set el rVal with
                      | .error e => .error e
                      | .ok m1 => .ok (none, m1)

end Memory

/-! ## Values of the test suite -/

/-- The predeclared type `string`. -/
def tString : GoType := .basic none .string

/-- The predeclared type `int`. -/
def tInt : GoType := .basic none .int

/-- The predeclared type `float64`. -/
def tFloat64 : GoType := .basic none .float64

/-- A defined type `type MyString string` of a package `main`. -/
def tMyString : GoType := .basic (some "main.MyString") .string

/-- The pointer type `*T`. -/
def tPtr (T : GoType) : GoType := .ptr none T

/-- A `string` value in an interface. -/
def str (x : String) : GoValue := .val tString (.prim (.str x))

/-- An `int` value in an interface. -/
def int (i : Int) : GoValue := .val tInt (.prim (.int i))

/-- The `float64` that `math.NaN()` returns, in an interface. -/
def nan : GoValue := .val tFloat64 (.prim (.float 0x7FF8000000000001))

/-- A pointer of type `*T` to the variable at address `a` (`&x`), in an
interface; `a = 0` is the nil pointer of that type. -/
def ptrTo (T : GoType) (a : Nat) : GoValue := .val (tPtr T) (.ptr a)

/-- The memory of the test of `Bind`: the variable `bindValue` (a string,
zero valued) at address 1 and the variable `invalidBindValue` (an int, zero
valued) at address 2. -/
def testHeap : Heap := fun a =>
  if a = 1 then str "" else if a = 2 then int 0 else .nil

/-- The store of the tests: `New()` after `Add("test", "hello")`. -/
def testStore : Store := { s := some [(str "test", str "hello")] }

/-- The store of the test of `Append`: "test" and "next", both "hello". -/
def appendStore : Store :=
  { s := some [(str "test", str "hello"), (str "next", str "hello")] }

/-- The entries appended in the third round of the test of `Append`. -/
def appendEntries : Entries := [(str "test", str "test"), (str "hello", str "test")]

/-- The struct type literal `struct { A int }`. -/
def tAnon : GoType := .struct none [("A", .int)]

/-- A defined type `type T struct { A int }` of a package `main`. -/
def tNamed : GoType := .struct (some "main.T") [("A", .int)]

/-- A defined type `type U struct { A int }` of a package `main`. -/
def tNamed2 : GoType := .struct (some "main.U") [("A", .int)]

/-- A store holding the value `struct { A int }{7}` under "k". -/
def anonStore : Store := { s := some [(str "k", .val tAnon (.struct [.int 7]))] }

/-- A memory with a zero valued variable of type `T` at address 3. -/
def namedHeap : Heap := fun a => if a = 3 then .val tNamed (.struct [.int 0]) else .nil

/-- A `Store` value in an interface: its field refers to the map object `r`. -/
def storeVal (r : Nat) : GoValue := .val tStore (.struct [.ref r])

/-- A defined type `type Outer struct { N int; S store.Store }` of a package
`main`, described by its slots in order: `N`, then the one field `s`, a map,
of the field `S`. -/
def tOuter : GoType := .struct (some "main.Outer") [("N", .int), ("S.s", .map)]

/-- An `Outer` value in an interface: the field `N`, and the map object `r`
of the field `S`. -/
def outerVal (n : Int) (r : Nat) : GoValue := .val tOuter (.struct [.int n, .ref r])

/-- A memory with a `Store` variable `s` at address 10 and an `Outer` variable
`o` at the addresses 20 and 21, so that `o.S` is the `Store` at address 21.
The map of `s` (object 1) holds under "k" a second `Store`, whose map (object
2) holds "x", and under "y" the int 2.  The map of `o.S` (object 3) holds
under "k" an `Outer` whose store has the map object 2, under "y" the int 2 and
under "n" the int 7. -/
def aliasMemory : Memory :=
  { slots := fun a =>
      if a = 10 then .prim (.ref 1)
      else if a = 20 then .prim (.int 5)
      else if a = 21 then .prim (.ref 3)
      else .iface .nil
    maps := fun r =>
      if r = 1 then [(str "k", storeVal 2), (str "y", int 2)]
      else if r = 2 then [(str "x", int 1)]
      else if r = 3 then [(str "k", outerVal 9 2), (str "y", int 2), (str "n", int 7)]
      else [] }

/-! ## Key equality is a partial equivalence -/

theorem beq_swap {α : Type} [DecidableEq α] (a b : α) : (a == b) = (b == a) := by
  by_cases h : a = b
  · subst h; rfl
  · have h2 : ¬ b = a := fun e => h e.symm
    simp [h, h2]

theorem decide_eq_swap {α : Type} [DecidableEq α] (a b : α) :
    decide (a = b) = decide (b = a) := by
  by_cases h : a = b
  · subst h; rfl
  · have h2 : ¬ b = a := fun e => h e.symm
    simp [h, h2]

theorem f64Eq_symm (a b : Nat) : f64Eq a b = f64Eq b a := by
  unfold f64Eq
  rw [beq_swap (a % 2 ^ 64) (b % 2 ^ 64)]
  cases f64IsNaN a <;> cases f64IsNaN b <;> cases f64IsZero a <;> cases f64IsZero b <;> simp

theorem f64Eq_trans {a b c : Nat} (h1 : f64Eq a b = true) (h2 : f64Eq b c = true) :
    f64Eq a c = true := by
  unfold f64Eq at *
  simp only [Bool.and_eq_true, Bool.or_eq_true, Bool.not_eq_true', beq_iff_eq] at *
  obtain ⟨⟨ha, hb⟩, h1⟩ := h1
  obtain ⟨⟨_, hc⟩, h2⟩ := h2
  refine ⟨⟨ha, hc⟩, ?_⟩
  rcases h1 with h1 | ⟨h1, h1b⟩ <;> rcases h2 with h2 | ⟨h2, h2b⟩
  · exact Or.inl (h1.trans h2)
  · right
    refine ⟨?_, h2b⟩
    unfold f64IsZero at *
    simp only [beq_iff_eq] at *
    omega
  · right
    refine ⟨h1, ?_⟩
    unfold f64IsZero at *
    simp only [beq_iff_eq] at *
    omega
  · exact Or.inr ⟨h1, h2b⟩

theorem primEq_symm (a b : Prim) : a.eq b = b.eq a := by
  cases a <;> cases b <;> simp only [Prim.eq]
  · exact beq_swap _ _
  · exact beq_swap _ _
  · exact f64Eq_symm _ _
  · exact beq_swap _ _

theorem primEq_trans {a b c : Prim} (h1 : a.eq b = true) (h2 : b.eq c = true) :
    a.eq c = true := by
  cases a <;> cases b <;> simp only [Prim.eq] at h1 <;> cases c <;>
    simp only [Prim.eq] at h2 ⊢ <;> try contradiction
  · simp only [beq_iff_eq] at *; exact h1.trans h2
  · simp only [beq_iff_eq] at *; exact h1.trans h2
  · exact f64Eq_trans h1 h2
  · simp only [beq_iff_eq] at *; exact h1.trans h2

theorem fieldsEq_symm : ∀ as bs : List Prim, fieldsEq as bs = fieldsEq bs as
  | [], [] => rfl
  | [], _ :: _ => rfl
  | _ :: _, [] => rfl
  | a :: as, b :: bs => by
      simp only [fieldsEq]
      rw [primEq_symm a b, fieldsEq_symm as bs]

theorem fieldsEq_trans : ∀ {as bs cs : List Prim},
    fieldsEq as bs = true → fieldsEq bs cs = true → fieldsEq as cs = true
  | [], [], [], _, _ => rfl
  | [], [], _ :: _, _, h => by simp [fieldsEq] at h
  | [], _ :: _, _, h, _ => by simp [fieldsEq] at h
  | _ :: _, [], _, h, _ => by simp [fieldsEq] at h
  | _ :: _, _ :: _, [], _, h => by simp [fieldsEq] at h
  | a :: as, b :: bs, c :: cs, h1, h2 => by
      simp only [fieldsEq, Bool.and_eq_true] at *
      exact ⟨primEq_trans h1.1 h2.1, fieldsEq_trans h1.2 h2.2⟩

theorem dataEq_symm (a b : Data) : a.eq b = b.eq a := by
  cases a <;> cases b <;> simp only [Data.eq]
  · exact primEq_symm _ _
  · exact beq_swap _ _
  · exact fieldsEq_symm _ _

theorem dataEq_trans {a b c : Data} (h1 : a.eq b = true) (h2 : b.eq c = true) :
    a.eq c = true := by
  cases a <;> cases b <;> simp only [Data.eq] at h1 <;> cases c <;>
    simp only [Data.eq] at h2 ⊢ <;> try contradiction
  · exact primEq_trans h1 h2
  · simp only [beq_iff_eq] at *; exact h1.trans h2
  · exact fieldsEq_trans h1 h2

theorem keyEq_symm (a b : GoValue) : a.keyEq b = b.keyEq a := by
  cases a <;> cases b <;> simp only [GoValue.keyEq]
  rename_i t d u e
  rw [dataEq_symm d e, decide_eq_swap t u]

theorem keyEq_trans {a b c : GoValue} (h1 : a.keyEq b = true)
    (h2 : b.keyEq c = true) : a.keyEq c = true := by
  cases a <;> cases b <;> simp only [GoValue.keyEq] at h1 <;> cases c <;>
    simp only [GoValue.keyEq] at h2 ⊢ <;> try contradiction
  simp only [Bool.and_eq_true, decide_eq_true_eq] at *
  exact ⟨h1.1.trans h2.1, dataEq_trans h1.2 h2.2⟩

/-! ## Lookup after assignment -/

/-- A lookup after `m[k] = v` finds `v` under every key `==` k and what it
found before under every other key. -/
theorem lookup_assign (es : Entries) (k v k2 : GoValue) :
    lookup (assign es k v) k2 = if k.keyEq k2 then some v else lookup es k2 := by
  induction es with
  | nil => simp [assign, lookup]
  | cons e es ih =>
      obtain ⟨k1, v1⟩ := e
      by_cases h1 : k1.keyEq k = true
      · simp only [assign, h1, if_true, lookup]
        by_cases h2 : k.keyEq k2 = true
        · simp [h2]
        · have h3 : ¬ k1.keyEq k2 = true := fun h3 => by
            apply h2
            rw [keyEq_symm] at h1
            exact keyEq_trans h1 h3
          simp [h2, h3]
      · simp only [assign, h1, lookup, ih]
        by_cases h2 : k1.keyEq k2 = true
        · have h3 : ¬ k.keyEq k2 = true := fun h3 => by
            apply h1
            rw [keyEq_symm] at h3
            exact keyEq_trans h2 h3
          simp [h2, h3]
        · simp [h2]

theorem lookup_some_mem {es : Entries} {k v : GoValue} (h : lookup es k = some v) :
    ∃ e ∈ es, e.1.keyEq k = true ∧ e.2 = v := by
  induction es with
  | nil => simp [lookup] at h
  | cons e es ih =>
      obtain ⟨k1, v1⟩ := e
      by_cases h1 : k1.keyEq k = true
      · simp only [lookup, h1, if_true, Option.some.injEq] at h
        exact ⟨(k1, v1), List.mem_cons_self _ _, h1, h⟩
      · simp only [lookup, h1] at h
        obtain ⟨e, he, h2⟩ := ih h
        exact ⟨e, List.mem_cons_of_mem _ he, h2⟩

theorem lookup_none_iff {es : Entries} {k : GoValue} :
    lookup es k = none ↔ ∀ e ∈ es, e.1.keyEq k = false := by
  induction es with
  | nil => simp [lookup]
  | cons e es ih =>
      obtain ⟨k1, v1⟩ := e
      by_cases h1 : k1.keyEq k = true
      · simp [lookup, h1]
      · have h2 : k1.keyEq k = false := by simpa using h1
        simp only [lookup, h2, Bool.false_eq_true, if_false]
        rw [ih]
        constructor
        · intro h e he
          rcases List.mem_cons.mp he with rfl | he
          · exact h2
          · exact h e he
        · intro h e he
          exact h e (List.mem_cons_of_mem _ he)

/-! ## The map of a store stays allocated -/

theorem addAll_allocated : ∀ (es : Entries) (s s1 : Store), s.s.isSome = true →
    s.addAll es = .ok s1 → s1.s.isSome = true
  | [], s, s1, hs, h => by
      simp only [Store.addAll, Except.ok.injEq] at h
      rw [← h]; exact hs
  | (k, v) :: es, s, s1, _, h => by
      obtain ⟨m⟩ := s
      cases m with
      | none => simp [Store.addAll, Store.Add, GoMap.assign] at h
      | some m =>
          by_cases hk : k.hashable = true
          · simp only [Store.addAll, Store.Add, GoMap.assign, hk, if_true] at h
            exact addAll_allocated es { s := some (assign m k v) } s1 rfl h
          · simp [Store.addAll, Store.Add, GoMap.assign, hk] at h

/-- The store of `New` has an allocated map, and `Add`, `Append` and `With`
leave a store with an allocated map when they start from one: every store
built through the methods has an allocated map. -/
theorem allocated_preserved (s : Store) (hs : s.s.isSome = true) :
    New.s.isSome = true ∧
      (∀ k v s1, s.Add k v = .ok s1 → s1.s.isSome = true) ∧
      (∀ vs s1, s.Append vs = .ok s1 → s1.s.isSome = true) ∧
      (∀ vs, (s.With vs).s.isSome = true) := by
  refine ⟨rfl, ?_, ?_, ?_⟩
  · intro k v s1 h
    exact addAll_allocated [(k, v)] s s1 hs (by simp [Store.addAll, h])
  · intro vs s1 h
    unfold Store.Append at h
    split at h
    · simp only [Except.ok.injEq] at h
      rw [← h]; exact hs
    · cases vs with
      | none => simp only [Except.ok.injEq] at h; rw [← h]; exact hs
      | some es => exact addAll_allocated es s s1 hs h
  · intro vs
    unfold Store.With
    split
    · exact hs
    · cases vs with
      | none => simp [GoMap.len] at *
      | some es => rfl

/-! ## Get, Add and Bind on a present or missing key -/

theorem kind_ptr (n : Option String) (T : GoType) : (GoType.ptr n T).Kind = .Ptr :=
  rfl

theorem directlyAssignable_kind {T V : GoType} (h : directlyAssignable T V = true) :
    T.Kind = V.Kind := by
  unfold directlyAssignable at h
  by_cases h1 : T = V
  · rw [h1]
  · by_cases h2 : T.Kind = V.Kind
    · exact h2
    · simp [h1, h2] at h

theorem wellFormed_kind_ne_interface {t : GoType} {d : Data}
    (h : (GoValue.val t d).wellFormed = true) : t.Kind ≠ .Interface := by
  cases t <;> cases d <;> simp [GoValue.wellFormed] at h <;> simp [GoType.Kind]
  rename_i n b p
  cases b <;> simp [Basic.Kind]

/-- Claim C1, amended: for every store with an allocated map, every value v
and every key k that is hashable and equal to itself under Go's `==` (so not
a NaN and not a struct holding one), `Add(k, v)` returns and `Get(k)` on the
store it leaves returns `(v, true)`; in particular for the store `New()`. -/
theorem C1_add_then_get (s : Store) (k v : GoValue) (hs : s.s.isSome = true)
    (hk : k.hashable = true) (hkk : k.keyEq k = true) :
    (s.Add k v).bind (fun s1 => s1.Get k) = .ok (v, true) ∧
      (New.Add k v).bind (fun s1 => s1.Get k) = .ok (v, true) := by
  have key : ∀ m : Entries,
      (Store.Add { s := some m } k v).bind (fun s1 => s1.Get k) = .ok (v, true) := by
    intro m
    simp [Store.Add, GoMap.assign, hk, Except.bind, Store.Get, GoMap.access,
      lookup_assign, hkk]
  obtain ⟨m⟩ := s
  cases m with
  | none => simp at hs
  | some m => exact ⟨key m, key []⟩

/-- The witness of C1: the key "test" of the tests, added with the value "hi"
to the store that holds it and to the store of `New`. -/
theorem C1_add_then_get_witness :
    (testStore.Add (str "test") (str "hi")).bind (fun s1 => s1.Get (str "test"))
        = .ok (str "hi", true) ∧
      (New.Add (str "test") (str "hi")).bind (fun s1 => s1.Get (str "test"))
        = .ok (str "hi", true) :=
  C1_add_then_get testStore (str "test") (str "hi") (by decide) (by decide) (by decide)

/-- The counterexample to C1: the key `math.NaN()` is a well-formed, hashable
`float64`, and `New().Add(NaN, "hello").Get(NaN)` returns `(nil, false)`. -/
theorem C1_nan_key_not_found :
    nan.wellFormed = true ∧ nan.hashable = true ∧
      (New.Add nan (str "hello")).bind (fun s1 => s1.Get nan) = .ok (.nil, false) ∧
      (New.Add nan (str "hello")).bind (fun s1 => s1.Get nan) ≠ .ok (str "hello", true) := by
  decide

/-- Claim C2, the code at its failing inputs: with the key present, a
`*string` destination and a stored `MyString` (a defined type of kind
String), `Bind` passes the kind check and panics in `Set`; with a stored nil
interface and an `*int` destination, `Bind` panics in `Type` while building
the type-mismatch error. -/
theorem C2_bind_panics :
    (Store.mk (some [(str "k", .val tMyString (.prim (.str "hello")))])).Bind
        (str "k") (ptrTo tString 1) testHeap
        = .error (.notAssignable tMyString tString) ∧
      (Store.mk (some [(str "k", .nil)])).Bind (str "k") (ptrTo tInt 2) testHeap
        = .error (.valueError "reflect.Value.Type" .Invalid) := by
  constructor <;> rfl

/-- Claim C3, amended: for every store, key k present in it with a well-formed
non-nil stored value of type t and data d, and destination a non-nil pointer
to a variable of a type T that t is assignable to (identical types, or equal
kinds and identical underlying types with at most one of the two named; this
entails equal kinds), `Bind` returns no error and afterwards the variable
holds the stored data under the type T, which is the stored value itself when
T and t are identical. -/
theorem C3_bind_copies (s : Store) (k : GoValue) (t T : GoType) (d : Data)
    (n : Option String) (a : Nat) (h : Heap)
    (hget : s.Get k = .ok (.val t d, true))
    (hwf : (GoValue.val t d).wellFormed = true)
    (ha : a ≠ 0) (hasg : directlyAssignable T t = true) :
    T.Kind = t.Kind ∧
      s.Bind k (.val (.ptr n T) (.ptr a)) h = .ok (none, h.store a (.val T d)) ∧
      (h.store a (.val T d)) a = .val T d ∧
      (T = t → (h.store a (.val T d)) a = .val t d) := by
  have hk := directlyAssignable_kind hasg
  refine ⟨hk, ?_, by simp [Heap.store], fun e => by simp [Heap.store, e]⟩
  have hb : (a == 0) = false := by simp [ha]
  have hni2 : t.Kind ≠ .Interface := wellFormed_kind_ne_interface hwf
  simp [Store.Bind, hget, ValueOf, Value.Kind, kind_ptr, Value.IsNil, Value.load,
    Data.addr, ha, hb, Value.Elem, GoType.Elem, hk, Value.Set, Value.Typ, hasg,
    Value.retag, hni2]

/-- The witness of C3: the stored "hello" and a `*string` destination. -/
theorem C3_bind_copies_witness :
    testStore.Bind (str "test") (ptrTo tString 1) testHeap
        = .ok (none, testHeap.store 1 (str "hello")) ∧
      (testHeap.store 1 (str "hello")) 1 = str "hello" :=
  ⟨(C3_bind_copies testStore (str "test") tString tString (.prim (.str "hello")) none 1
      testHeap (by decide) (by decide) (by decide) (by decide)).2.1,
   (C3_bind_copies testStore (str "test") tString tString (.prim (.str "hello")) none 1
      testHeap (by decide) (by decide) (by decide) (by decide)).2.2.1⟩

/-- The counterexample to C3: the key is present, the destination is a
non-nil `*string`, the stored `MyString` has the kind String of the pointee,
and `Bind` panics instead of copying. -/
theorem C3_same_kind_panics :
    (Store.mk (some [(str "k", .val tMyString (.prim (.str "hello")))])).Get (str "k")
        = .ok (.val tMyString (.prim (.str "hello")), true) ∧
      (GoValue.val tMyString (.prim (.str "hello"))).wellFormed = true ∧
      tString.Kind = tMyString.Kind ∧
      (ValueOf (ptrTo tString 1)).IsNil testHeap = .ok false ∧
      (Store.mk (some [(str "k", .val tMyString (.prim (.str "hello")))])).Bind
        (str "k") (ptrTo tString 1) testHeap
        = .error (.notAssignable tMyString tString) := by
  refine ⟨by decide, by decide, by decide, by decide, rfl⟩

/-- Claim C4: for every store and every key k that `Get` does not find, `Bind`
returns a `KeyNotExistError` carrying k, whatever the destination (nil, a
non-pointer, a nil pointer or a valid pointer), and writes nothing. -/
theorem C4_bind_missing_key (s : Store) (k d x : GoValue) (h : Heap)
    (hget : s.Get k = .ok (x, false)) :
    s.Bind k d h = .ok (some (.keyNotExist { Key := k }), h) := by
  simp [Store.Bind, hget]

/-- The witness of C4: `New().Bind("missing", nil)`. -/
theorem C4_bind_missing_key_witness :
    New.Bind (str "missing") .nil testHeap
      = .ok (some (.keyNotExist { Key := str "missing" }), testHeap) :=
  C4_bind_missing_key New (str "missing") .nil .nil testHeap (by decide)

/-- Claim C5: for every store and key k that `Get` finds, whatever the stored
value, if the destination is nil, or is not of kind Ptr, or is a pointer for
which `IsNil` holds, `Bind` returns an `InvalidBindError` carrying the Value
of the destination. -/
theorem C5_bind_invalid_destination (s : Store) (k d x : GoValue) (h : Heap)
    (hget : s.Get k = .ok (x, true))
    (hd : d = .nil ∨ (ValueOf d).Kind ≠ .Ptr ∨
      ((ValueOf d).Kind = .Ptr ∧ (ValueOf d).IsNil h = .ok true)) :
    s.Bind k d h = .ok (some (.invalidBind { Val := ValueOf d }), h) := by
  rcases hd with hd | hd | ⟨hd, hn⟩
  · subst hd
    simp [Store.Bind, hget, ValueOf, Value.Kind]
  · simp [Store.Bind, hget, hd]
  · simp [Store.Bind, hget, hd, hn]

/-- The witness of C5: a nil `*string` as destination, the stored value being
a string. -/
theorem C5_bind_invalid_destination_witness :
    testStore.Bind (str "test") (ptrTo tString 0) testHeap
      = .ok (some (.invalidBind { Val := ValueOf (ptrTo tString 0) }), testHeap) :=
  C5_bind_invalid_destination testStore (str "test") (ptrTo tString 0) (str "hello") testHeap
    (by decide) (Or.inr (Or.inr ⟨by decide, by decide⟩))

/-- A type mismatch on a stored value that is not the nil interface: with the
key present, a non-nil pointer destination and a pointee kind other than the
stored kind, `Bind` returns a `BindTypeNotMatchError` with the pointee type
and the stored type. -/
theorem bind_type_mismatch (s : Store) (k : GoValue) (t T : GoType) (d : Data)
    (n : Option String) (a : Nat) (h : Heap)
    (hget : s.Get k = .ok (.val t d, true)) (ha : a ≠ 0) (hk : T.Kind ≠ t.Kind) :
    s.Bind k (.val (.ptr n T) (.ptr a)) h
      = .ok (some (.typeNotMatch { Expect := T, Actual := t }), h) := by
  have hb : (a == 0) = false := by simp [ha]
  simp [Store.Bind, hget, ValueOf, Value.Kind, kind_ptr, Value.IsNil, Value.load,
    Data.addr, ha, hb, Value.Elem, GoType.Elem, hk, Value.Typ]

/-- Claim C6, the code at its failing input: the key "k" is present with the
nil interface as stored value, the destination is a non-nil `*int`, the
pointee kind Int differs from the stored kind Invalid, and `Bind` panics in
`reflect.Value.Type` instead of returning a `BindTypeNotMatchError`. -/
theorem C6_bind_stored_nil_panics :
    (Store.mk (some [(str "k", .nil)])).Get (str "k") = .ok (.nil, true) ∧
      (ValueOf (ptrTo tInt 2)).Kind = .Ptr ∧
      (ValueOf (ptrTo tInt 2)).IsNil testHeap = .ok false ∧
      tInt.Kind ≠ (ValueOf .nil).Kind ∧
      ((Store.mk (some [(str "k", .nil)])).Bind (str "k") (ptrTo tInt 2) testHeap).map
          Prod.fst
        = .error (.valueError "reflect.Value.Type" .Invalid) := by
  decide

/-- Claim C7: whenever `Bind` returns an error, of any of the three kinds,
the memory after the call is the memory before it: every variable, so every
addressable destination, holds what it held. -/
theorem C7_failed_bind_writes_nothing (s : Store) (k d : GoValue) (h h1 : Heap)
    (e : BindError) (hb : s.Bind k d h = .ok (some e, h1)) : h1 = h := by
  unfold Store.Bind at hb
  dsimp only at hb
  repeat' split at hb
  all_goals (cases hb; try rfl)

/-- The witness of C7: the stored string "hello" and an `*int` destination
give a `BindTypeNotMatchError`. -/
theorem C7_failed_bind_writes_nothing_witness :
    testStore.Bind (str "test") (ptrTo tInt 2) testHeap
        = .ok (some (.typeNotMatch { Expect := tInt, Actual := tString }), testHeap) ∧
      testHeap = testHeap :=
  ⟨rfl, C7_failed_bind_writes_nothing testStore (str "test") (ptrTo tInt 2) testHeap testHeap
    (.typeNotMatch { Expect := tInt, Actual := tString }) rfl⟩

/-- Claim C8: for every store s and every map of length other than 0, after
`With` the backing map is that map: `Get(k)` returns `(v, true)` for every key
the map holds with value v, and `(nil, false)` for every key the map does not
hold, whatever s held before. -/
theorem C8_with_replaces (s : Store) (vs : GoMap) (hlen : vs.len ≠ 0) :
    (s.With vs).Underlying = vs ∧
      (∀ k v, vs.access k = .ok (v, true) → (s.With vs).Get k = .ok (v, true)) ∧
      (∀ k, vs.access k = .ok (.nil, false) → (s.With vs).Get k = .ok (.nil, false)) := by
  have hw : s.With vs = { s := vs } := by simp [Store.With, hlen]
  rw [hw]
  exact ⟨rfl, fun k v hk => hk, fun k hk => hk⟩

/-- The witness of C8: the store holding "test" after `With({"hello": "test"})`
finds "hello" and no longer finds "test". -/
theorem C8_with_replaces_witness :
    testStore.Get (str "test") = .ok (str "hello", true) ∧
      (testStore.With (some [(str "hello", str "test")])).Get (str "hello")
        = .ok (str "test", true) ∧
      (testStore.With (some [(str "hello", str "test")])).Get (str "test")
        = .ok (.nil, false) :=
  ⟨by decide,
   (C8_with_replaces testStore (some [(str "hello", str "test")]) (by decide)).2.1
      (str "hello") (str "test") (by decide),
   (C8_with_replaces testStore (some [(str "hello", str "test")]) (by decide)).2.2
      (str "test") (by decide)⟩

/-- Claim C9: for every store s, `With` of the nil map and `With` of an empty
map leave the store as it is, so every key has the same `Get` result after
the call as before; the store is not cleared. -/
theorem C9_with_empty_preserves (s : Store) (k : GoValue) :
    s.With none = s ∧ s.With (some []) = s ∧
      (s.With none).Get k = s.Get k ∧ (s.With (some [])).Get k = s.Get k := by
  have h1 : s.With none = s := by simp [Store.With, GoMap.len]
  have h2 : s.With (some []) = s := by simp [Store.With, GoMap.len]
  rw [h1, h2]
  exact ⟨rfl, rfl, rfl, rfl⟩

/-! ## Append -/

theorem keysDistinct_iff_pairwise (es : Entries) :
    keysDistinct es = true ↔ es.Pairwise (fun e f => e.1.keyEq f.1 = false) := by
  induction es with
  | nil => simp [keysDistinct]
  | cons e es ih =>
      simp only [keysDistinct, Bool.and_eq_true, List.all_eq_true, Bool.not_eq_true',
        List.pairwise_cons, ih]

theorem keysDistinct_perm {es es2 : Entries} (hp : es2.Perm es)
    (hd : keysDistinct es = true) : keysDistinct es2 = true := by
  rw [keysDistinct_iff_pairwise] at *
  refine (hp.pairwise_iff ?_).mpr hd
  intro a b hab
  rw [keyEq_symm]
  exact hab

theorem lookup_of_mem {es : Entries} {e : GoValue × GoValue} {k : GoValue}
    (hd : keysDistinct es = true) (he : e ∈ es) (hk : e.1.keyEq k = true) :
    lookup es k = some e.2 := by
  induction es with
  | nil => cases he
  | cons f es ih =>
      obtain ⟨k1, v1⟩ := f
      rw [keysDistinct_iff_pairwise, List.pairwise_cons, ← keysDistinct_iff_pairwise] at hd
      rcases List.mem_cons.mp he with rfl | he
      · simp only [lookup]
        simp only at hk
        simp [hk]
      · have h1 : k1.keyEq k = false := by
          by_contra hc
          have hc : k1.keyEq k = true := by simpa using hc
          have h2 : k1.keyEq e.1 = true := by
            rw [keyEq_symm] at hk
            exact keyEq_trans hc hk
          have h3 := hd.1 e he
          simp only at h3
          rw [h2] at h3
          cases h3
        simp only [lookup, h1, Bool.false_eq_true, if_false]
        exact ih hd.2 he

theorem lookup_perm {es es2 : Entries} (hp : es2.Perm es) (hd : keysDistinct es = true)
    (k : GoValue) : lookup es2 k = lookup es k := by
  have hd2 := keysDistinct_perm hp hd
  cases hl : lookup es k with
  | none =>
      rw [lookup_none_iff] at hl ⊢
      intro e he
      exact hl e (hp.subset he)
  | some v =>
      obtain ⟨e, he, hk, hv⟩ := lookup_some_mem hl
      rw [← hv]
      exact lookup_of_mem hd2 (hp.symm.subset he) hk

/-- The loop of `Append` on an allocated store returns, and a lookup
afterwards finds the value of the appended entries, or else what it found
before. -/
theorem addAll_lookup : ∀ (es m : Entries), (∀ e ∈ es, e.1.hashable = true) →
    keysDistinct es = true →
    ∃ m2, Store.addAll { s := some m } es = .ok { s := some m2 } ∧
      ∀ k, lookup m2 k = match lookup es k with
        | some v => some v
        | none => lookup m k
  | [], m, _, _ => ⟨m, rfl, fun k => by simp [lookup]⟩
  | (k1, v1) :: es, m, hh, hd => by
      rw [keysDistinct_iff_pairwise, List.pairwise_cons, ← keysDistinct_iff_pairwise] at hd
      have hk1 : k1.hashable = true := hh (k1, v1) (List.mem_cons_self _ _)
      obtain ⟨m2, h1, h2⟩ := addAll_lookup es (assign m k1 v1)
        (fun e he => hh e (List.mem_cons_of_mem _ he)) hd.2
      refine ⟨m2, ?_, ?_⟩
      · simp only [Store.addAll, Store.Add, GoMap.assign, hk1, if_true]
        exact h1
      · intro k
        rw [h2 k, lookup_assign]
        by_cases hk : k1.keyEq k = true
        · have hn : lookup es k = none := by
            rw [lookup_none_iff]
            intro e he
            by_contra hc
            have hc : e.1.keyEq k = true := by simpa using hc
            have h3 : k1.keyEq e.1 = true := by
              rw [keyEq_symm] at hc
              exact keyEq_trans hk hc
            have h4 := hd.1 e he
            simp only at h4
            rw [h3] at h4
            cases h4
          simp [lookup, hk, hn]
        · simp [lookup, hk]

theorem wellFormed_entries {es : Entries} (h : es.wellFormed = true) :
    (∀ e ∈ es, e.1.hashable = true) ∧ keysDistinct es = true := by
  simp only [Entries.wellFormed, Bool.and_eq_true, List.all_eq_true] at h
  exact ⟨fun e he => (h.1 e he).1.1, h.2⟩

theorem access_true {es : Entries} {k v : GoValue}
    (h : GoMap.access (some es) k = .ok (v, true)) :
    k.hashable = true ∧ lookup es k = some v := by
  unfold GoMap.access at h
  by_cases hk : k.hashable = true
  · simp only [hk, if_true] at h
    refine ⟨hk, ?_⟩
    cases hl : lookup es k with
    | none => rw [hl] at h; simp at h
    | some w => rw [hl] at h; simp at h; rw [h]
  · simp [hk] at h

theorem access_false {es : Entries} {k v : GoValue}
    (h : GoMap.access (some es) k = .ok (v, false)) :
    k.hashable = true ∧ lookup es k = none := by
  unfold GoMap.access at h
  by_cases hk : k.hashable = true
  · simp only [hk, if_true] at h
    refine ⟨hk, ?_⟩
    cases hl : lookup es k with
    | none => rfl
    | some w => rw [hl] at h; simp at h
  · simp [hk] at h

/-- Claim C10: for every store s with an allocated map and every well-formed
map vs, `Append` returns, and on the store it leaves `Get(k)` returns
`(v, true)` for every key that vs holds with value v and what it returned
before the call for every key that vs does not hold; the same store contents
result from visiting the entries of vs in any other order. -/
theorem C10_append (s : Store) (vs : GoMap) (hs : s.s.isSome = true)
    (hwf : vs.wellFormed = true) :
    ∃ s1, s.Append vs = .ok s1 ∧
      (∀ k v, vs.access k = .ok (v, true) → s1.Get k = .ok (v, true)) ∧
      (∀ k, vs.access k = .ok (.nil, false) → s1.Get k = s.Get k) ∧
      (∀ es es2, vs = some es → es2.Perm es →
        ∃ s2, s.Append (some es2) = .ok s2 ∧ ∀ k, s2.Get k = s1.Get k) := by
  obtain ⟨m⟩ := s
  cases m with
  | none => simp at hs
  | some m =>
    cases vs with
    | none =>
        refine ⟨{ s := some m }, by simp [Store.Append, GoMap.len], ?_, fun k _ => rfl, ?_⟩
        · intro k v h
          simp [GoMap.access] at h
          split at h <;> simp at h
        · intro es es2 h
          cases h
    | some es =>
        obtain ⟨hh, hd⟩ := wellFormed_entries hwf
        obtain ⟨m2, h1, h2⟩ := addAll_lookup es m hh hd
        have happ : ∀ l : Entries, Store.Append { s := some m } (some l)
            = Store.addAll { s := some m } l := by
          intro l
          cases l with
          | nil => simp [Store.Append, GoMap.len, Store.addAll]
          | cons e l => simp [Store.Append, GoMap.len]
        refine ⟨{ s := some m2 }, by rw [happ]; exact h1, ?_, ?_, ?_⟩
        · intro k v h
          obtain ⟨hk, hl⟩ := access_true h
          simp [Store.Get, GoMap.access, hk, h2 k, hl]
        · intro k h
          obtain ⟨hk, hl⟩ := access_false h
          simp [Store.Get, GoMap.access, hk, h2 k, hl]
        · intro es1 es2 he hp
          cases he
          have hh2 : ∀ e ∈ es2, e.1.hashable = true := fun e he => hh e (hp.subset he)
          obtain ⟨m3, h3, h4⟩ := addAll_lookup es2 m hh2 (keysDistinct_perm hp hd)
          refine ⟨{ s := some m3 }, by rw [happ]; exact h3, ?_⟩
          intro k
          simp only [Store.Get, GoMap.access]
          rw [h4 k, h2 k, lookup_perm hp hd k]

/-- The witness of C10: the third round of the test of `Append`; "test" is
overwritten, "next" is kept, and "hello" is found whichever order the
entries are visited in. -/
theorem C10_append_witness :
    (appendStore.Append (some appendEntries)).bind (fun s1 => s1.Get (str "test"))
        = .ok (str "test", true) ∧
      (appendStore.Append (some appendEntries)).bind (fun s1 => s1.Get (str "next"))
        = .ok (str "hello", true) ∧
      (appendStore.Append (some appendEntries.reverse)).bind (fun s1 => s1.Get (str "hello"))
        = (appendStore.Append (some appendEntries)).bind (fun s1 => s1.Get (str "hello")) := by
  obtain ⟨s1, h1, h2, h3, h4⟩ :=
    C10_append appendStore (some appendEntries) (by decide) (by decide)
  obtain ⟨s2, h5, h6⟩ := h4 appendEntries appendEntries.reverse rfl (List.reverse_perm _)
  rw [h1, h5]
  refine ⟨h2 _ _ (by decide), ?_, h6 _⟩
  exact (h3 (str "next") (by decide)).trans (by decide)

/-! ## Append of nothing, Add on another key, MustGet, New -/

/-- Claim C11: for every store s, `Append` of the nil map and `Append` of an
empty map return and leave the store as it is: the same backing map, so the
same keys with the same values, and the same `Get` result for every key. -/
theorem C11_append_empty_preserves (s : Store) (k : GoValue) :
    s.Append none = .ok s ∧ s.Append (some []) = .ok s ∧
      (s.Append none).map Store.Underlying = .ok s.Underlying ∧
      (s.Append (some [])).map Store.Underlying = .ok s.Underlying ∧
      (s.Append none).bind (fun s1 => s1.Get k) = s.Get k ∧
      (s.Append (some [])).bind (fun s1 => s1.Get k) = s.Get k := by
  have h1 : s.Append none = .ok s := by simp [Store.Append, GoMap.len]
  have h2 : s.Append (some []) = .ok s := by simp [Store.Append, GoMap.len]
  rw [h1, h2]
  exact ⟨rfl, rfl, rfl, rfl, rfl, rfl⟩

/-- Claim C12: for every store s with an allocated map, every value v and
every two keys k1 (hashable) and k2 that are unequal under Go's `==` (a
different dynamic type, or different data), `Get(k2)` after `Add(k1, v)`
returns what `Get(k2)` returned before; in particular
`New().Add("1", v).Get(1)` returns `(nil, false)`. -/
theorem C12_add_keeps_other_keys (s : Store) (k1 k2 v : GoValue)
    (hs : s.s.isSome = true) (hk1 : k1.hashable = true)
    (hne : k1.keyEq k2 = false) :
    (s.Add k1 v).bind (fun s1 => s1.Get k2) = s.Get k2 ∧
      (New.Add (str "1") v).bind (fun s1 => s1.Get (int 1)) = .ok (.nil, false) := by
  have key : ∀ (m : Entries) (a b : GoValue), a.hashable = true → a.keyEq b = false →
      (Store.Add { s := some m } a v).bind (fun s1 => s1.Get b)
        = Store.Get { s := some m } b := by
    intro m a b ha hab
    simp [Store.Add, GoMap.assign, ha, Except.bind, Store.Get, GoMap.access,
      lookup_assign, hab]
  obtain ⟨m⟩ := s
  cases m with
  | none => simp at hs
  | some m =>
      refine ⟨key m k1 k2 hk1 hne, ?_⟩
      have h := key [] (str "1") (int 1) (by decide) (by decide)
      rw [show New = { s := some [] } from rfl, h]
      decide

/-- The witness of C12: on the store holding "test", adding under the string
"1" keeps `Get("test")`, and on `New()` the int 1 is not found. -/
theorem C12_add_keeps_other_keys_witness :
    (testStore.Add (str "1") (str "hello")).bind (fun s1 => s1.Get (str "test"))
        = .ok (str "hello", true) ∧
      (New.Add (str "1") (str "hello")).bind (fun s1 => s1.Get (int 1))
        = .ok (.nil, false) :=
  ⟨(C12_add_keeps_other_keys testStore (str "1") (str "test") (str "hello")
      (by decide) (by decide) (by decide)).1.trans (by decide),
   (C12_add_keeps_other_keys testStore (str "1") (str "test") (str "hello")
      (by decide) (by decide) (by decide)).2⟩

theorem get_error {s : Store} {k : GoValue} {p : Panic} (h : s.Get k = .error p) :
    p = .unhashable k := by
  unfold Store.Get GoMap.access at h
  split at h
  · split at h
    · cases h
    · split at h <;> cases h
  · cases h
    rfl

/-- Claim C13: for every store s and key k, `MustGet(k)` panics with
`KeyNotExistError{Key: k}` exactly when `Get(k)` returns `ok = false`, and
returns v, without a panic, exactly when `Get(k)` returns `(v, true)`. -/
theorem C13_mustget (s : Store) (k : GoValue) :
    (s.MustGet k = .error (.keyNotExist k) ↔ ∃ x, s.Get k = .ok (x, false)) ∧
      (∀ v, s.Get k = .ok (v, true) → s.MustGet k = .ok v) ∧
      (∀ v, s.MustGet k = .ok v → s.Get k = .ok (v, true)) := by
  unfold Store.MustGet
  cases hg : s.Get k with
  | error p =>
      have hp := get_error hg
      subst hp
      refine ⟨⟨?_, ?_⟩, ?_, ?_⟩
      · intro h
        cases h
      · intro h
        obtain ⟨x, h⟩ := h
        cases h
      · intro v h
        cases h
      · intro v h
        cases h
  | ok r =>
      obtain ⟨v, ok⟩ := r
      cases ok with
      | false => simp
      | true => simp

/-- The witness of C13: `MustGet("test")` returns "hello" on the store of the
tests and panics on `New()`. -/
theorem C13_mustget_witness :
    testStore.MustGet (str "test") = .ok (str "hello") ∧
      New.MustGet (str "test") = .error (.keyNotExist (str "test")) :=
  ⟨(C13_mustget testStore (str "test")).2.1 (str "hello") (by decide),
   (C13_mustget New (str "test")).1.mpr ⟨.nil, by decide⟩⟩

/-- Claim C14: the store of `New` has an allocated backing map of length 0,
and `Get(k)` on it returns `(nil, false)` for every hashable key k. -/
theorem C14_new_is_empty (k : GoValue) (hk : k.hashable = true) :
    New.Underlying = some [] ∧ New.Underlying ≠ none ∧ New.Underlying.len = 0 ∧
      New.Get k = .ok (.nil, false) := by
  refine ⟨rfl, by simp [New, Store.Underlying], rfl, ?_⟩
  simp [New, Store.Get, GoMap.access, hk, lookup]

/-- The witness of C14: the key "test" of the tests. -/
theorem C14_new_is_empty_witness :
    New.Underlying = some [] ∧ New.Underlying ≠ none ∧ New.Underlying.len = 0 ∧
      New.Get (str "test") = .ok (.nil, false) :=
  C14_new_is_empty (str "test") (by decide)

/-! ## One value per key, Underlying, distinct types of one kind -/

theorem assign_length_of_found : ∀ (es : Entries) (k v w : GoValue),
    lookup es k = some w → (assign es k v).length = es.length
  | [], _, _, _, h => by simp [lookup] at h
  | (k1, v1) :: es, k, v, w, h => by
      by_cases h1 : k1.keyEq k = true
      · simp [assign, h1]
      · have h2 : k1.keyEq k = false := by simpa using h1
        simp only [lookup, h2, Bool.false_eq_true, if_false] at h
        simp only [assign, h2, Bool.false_eq_true, if_false, List.length_cons]
        rw [assign_length_of_found es k v w h]

/-- Claim C15, amended: for every store s with an allocated map, every two
values v1 and v2 and every hashable key k: when k is equal to itself under
Go's `==` (so not a NaN and not a struct holding one), both calls of
`s.Add(k, v1).Add(k, v2)` return, `Get(k)` afterwards returns `(v2, true)`
and the second `Add` leaves the number of entries as it is; and, whether or
not k is equal to itself, `New().Add(k, v1)` has exactly one entry. -/
theorem C15_add_overwrites (s : Store) (k v1 v2 : GoValue) (hs : s.s.isSome = true)
    (hk : k.hashable = true) :
    (k.keyEq k = true →
        ∃ s1 s2, s.Add k v1 = .ok s1 ∧ s1.Add k v2 = .ok s2 ∧
          s2.Get k = .ok (v2, true) ∧ s2.Underlying.len = s1.Underlying.len) ∧
      (New.Add k v1).map (fun s1 => s1.Underlying.len) = .ok 1 := by
  obtain ⟨m⟩ := s
  cases m with
  | none => simp at hs
  | some m =>
      refine ⟨fun hkk => ⟨{ s := some (assign m k v1) },
        { s := some (assign (assign m k v1) k v2) }, ?_, ?_, ?_, ?_⟩, ?_⟩
      · simp [Store.Add, GoMap.assign, hk]
      · simp [Store.Add, GoMap.assign, hk]
      · simp [Store.Get, GoMap.access, hk, lookup_assign, hkk]
      · simp only [Store.Underlying, GoMap.len]
        exact assign_length_of_found _ k v2 v1 (by simp [lookup_assign, hkk])
      · simp [New, Store.Add, GoMap.assign, hk, Except.map, Store.Underlying, GoMap.len,
          assign]

/-- The witness of C15: the key "test" of the tests, added twice, and the one
entry of `New().Add(k, v)` both for "test" and for the key `math.NaN()`, which
is hashable and not equal to itself. -/
theorem C15_add_overwrites_witness :
    ((New.Add (str "test") (str "hello")).bind
        (fun s1 => s1.Add (str "test") (str "hi"))).bind (fun s2 => s2.Get (str "test"))
        = .ok (str "hi", true) ∧
      (New.Add (str "test") (str "hello")).map (fun s1 => s1.Underlying.len) = .ok 1 ∧
      nan.keyEq nan = false ∧
      (New.Add nan (str "hello")).map (fun s1 => s1.Underlying.len) = .ok 1 := by
  obtain ⟨h0, h5⟩ :=
    C15_add_overwrites New (str "test") (str "hello") (str "hi") (by decide) (by decide)
  obtain ⟨s1, s2, h1, h2, h3, _⟩ := h0 (by decide)
  refine ⟨?_, h5, by decide,
    (C15_add_overwrites New nan (str "hello") (str "hi") (by decide) (by decide)).2⟩
  rw [h1]
  simp only [Except.bind]
  rw [h2]
  exact h3

/-- The counterexample to C15: with the hashable key `math.NaN()`,
`New().Add(NaN, "a").Add(NaN, "b").Get(NaN)` returns `(nil, false)`, and the
second `Add` takes the number of entries from 1 to 2. -/
theorem C15_nan_key_twice :
    nan.wellFormed = true ∧ nan.hashable = true ∧
      ((New.Add nan (str "a")).bind (fun s1 => s1.Add nan (str "b"))).bind
          (fun s2 => s2.Get nan) = .ok (.nil, false) ∧
      (New.Add nan (str "a")).map (fun s1 => s1.Underlying.len) = .ok 1 ∧
      ((New.Add nan (str "a")).bind (fun s1 => s1.Add nan (str "b"))).map
          (fun s2 => s2.Underlying.len) = .ok 2 := by
  decide

/-- Claim C16: for every store s and key k, `Get(k)` is the index expression
on the map `Underlying()` returns: `Get(k)` returns `(v, true)` exactly when
that map holds v under k, and `ok = false` exactly when it does not hold k;
and for every hashable key k, `New().Add(k, v).Underlying()` is the map with
the one entry `(k, v)`. -/
theorem C16_underlying (s : Store) (k v : GoValue) :
    s.Get k = s.Underlying.access k ∧
      (s.Get k = .ok (v, true) ↔ s.Underlying.access k = .ok (v, true)) ∧
      (s.Get k = .ok (v, true) ↔
        k.hashable = true ∧ ∃ es, s.Underlying = some es ∧ lookup es k = some v) ∧
      ((∃ x, s.Get k = .ok (x, false)) ↔ ∃ x, s.Underlying.access k = .ok (x, false)) ∧
      (k.hashable = true →
        (New.Add k v).map Store.Underlying = .ok (some [(k, v)])) := by
  refine ⟨rfl, Iff.rfl, ?_, Iff.rfl, ?_⟩
  · obtain ⟨m⟩ := s
    simp only [Store.Get, Store.Underlying]
    constructor
    · intro h
      cases m with
      | none =>
          unfold GoMap.access at h
          split at h <;> cases h
      | some es =>
          obtain ⟨hk, hl⟩ := access_true h
          exact ⟨hk, es, rfl, hl⟩
    · rintro ⟨hk, es, hes, hl⟩
      subst hes
      simp [GoMap.access, hk, hl]
  · intro hk
    simp [New, Store.Add, GoMap.assign, hk, Except.map, Store.Underlying, assign]

/-- The witness of C16: `New().Add("test", "hello").Underlying()` is the map
`ori` of the tests. -/
theorem C16_underlying_witness :
    (New.Add (str "test") (str "hello")).map Store.Underlying
      = .ok (some [(str "test", str "hello")]) :=
  (C16_underlying New (str "test") (str "hello")).2.2.2.2 (by decide)

/-- Claim C17: the stored value `struct { A int }{7}` and a destination of
type `*T`, where `T` is defined as `struct { A int }`, have distinct types of
the one kind Struct; `Bind` passes the kind check, returns no error, and the
variable the destination points to holds the stored data afterwards. -/
theorem C17_bind_distinct_types_same_kind :
    tNamed ≠ tAnon ∧ tNamed.Kind = .Struct ∧ tAnon.Kind = .Struct ∧
      anonStore.Get (str "k") = .ok (.val tAnon (.struct [.int 7]), true) ∧
      (GoValue.val tAnon (.struct [.int 7])).wellFormed = true ∧
      namedHeap 3 = .val tNamed (.struct [.int 0]) ∧
      (anonStore.Bind (str "k") (ptrTo tNamed 3) namedHeap).map Prod.fst = .ok none ∧
      (anonStore.Bind (str "k") (ptrTo tNamed 3) namedHeap).map (fun r => r.2 3)
        = .ok (.val tNamed (.struct [.int 7])) := by
  decide

/-- Two defined struct types with the same fields: the kinds agree, the
types are not assignable, and `Bind` panics in `Set`. -/
theorem bind_defined_structs_panics :
    tNamed.Kind = tNamed2.Kind ∧
      ((Store.mk (some [(str "k", .val tNamed2 (.struct [.int 7]))])).Bind (str "k")
          (ptrTo tNamed 3) namedHeap).map Prod.fst
        = .error (.notAssignable tNamed2 tNamed) := by
  decide

/-! ## The message of an InvalidBindError -/

theorem bind_invalid_inv {s : Store} {k d : GoValue} {h h1 : Heap} {e : InvalidBindError}
    (hb : s.Bind k d h = .ok (some (.invalidBind e), h1)) :
    e.Val = ValueOf d ∧
      ((ValueOf d).Kind ≠ .Ptr ∨ (ValueOf d).IsNil h = .ok true) := by
  unfold Store.Bind at hb
  dsimp only at hb
  split at hb
  · cases hb
  · split at hb
    · cases hb
    · split at hb
      · cases hb
      · rename_i heq
        simp only [Except.ok.injEq, Prod.mk.injEq, Option.some.injEq,
          BindError.invalidBind.injEq] at hb
        refine ⟨by rw [← hb.1], ?_⟩
        by_cases hk : (ValueOf d).Kind = .Ptr
        · right
          simpa [hk] using heq
        · exact Or.inl hk
      · repeat' split at hb
        all_goals cases hb

/-- Claim C18, amended: for every `InvalidBindError` that `Bind` returns, the
error carries the Value of the destination, the destination has exactly one
of three shapes, and the message `Error()` is: `Store: Bind(nil)` for the nil
destination; `Store: Bind(non-pointer T)` for a destination of a type T of a
kind other than Ptr; `Store: Bind(T pointer is nil)` for a nil pointer of
the pointer type T. -/
theorem C18_invalid_bind_message (s : Store) (k d : GoValue) (h h1 : Heap)
    (e : InvalidBindError)
    (hb : s.Bind k d h = .ok (some (.invalidBind e), h1)) :
    e.Val = ValueOf d ∧
      (d = .nil ∨ (∃ t x, d = .val t x ∧ t.Kind ≠ .Ptr) ∨
        (∃ t x, d = .val t x ∧ t.Kind = .Ptr ∧ x.addr = 0)) ∧
      (d = .nil → e.Error = .ok "Store: Bind(nil)") ∧
      (∀ t x, d = .val t x → t.Kind ≠ .Ptr →
        e.Error = .ok ("Store: Bind(non-pointer " ++ t.String ++ ")")) ∧
      (∀ t x, d = .val t x → t.Kind = .Ptr →
        x.addr = 0 ∧ e.Error = .ok ("Store: Bind(" ++ t.String ++ " pointer is nil)")) := by
  obtain ⟨hv, hd⟩ := bind_invalid_inv hb
  obtain ⟨v⟩ := e
  simp only at hv
  subst hv
  have hlit : ∀ T : String, "Store: Bind(" ++ ("non-pointer " ++ T)
      = "Store: Bind(non-pointer " ++ T := by
    intro T
    rw [← String.append_assoc]
    rfl
  cases d with
  | nil =>
      refine ⟨rfl, Or.inl rfl, fun _ => ?_, fun t x ht => (by cases ht),
        fun t x ht => (by cases ht)⟩
      simp [InvalidBindError.Error, ValueOf, Value.Kind, bindTpl]
  | val t x =>
      have hki : t.Kind ≠ .Invalid := by
        cases t <;> simp [GoType.Kind]
        rename_i n b
        cases b <;> simp [Basic.Kind]
      by_cases hk : t.Kind = .Ptr
      · have hnil : x.addr = 0 := by
          rcases hd with hd | hd
          · exact absurd hk (by simpa [ValueOf, Value.Kind] using hd)
          · simpa [ValueOf, Value.IsNil, Value.Kind, hk, Value.load] using hd
        refine ⟨rfl, Or.inr (Or.inr ⟨t, x, rfl, hk, hnil⟩), fun hn => (by cases hn),
          ?_, ?_⟩
        · intro t2 x2 ht hk2
          cases ht
          exact absurd hk hk2
        · intro t2 x2 ht _
          cases ht
          refine ⟨hnil, ?_⟩
          simp [InvalidBindError.Error, ValueOf, Value.Kind, hk, Value.Typ, bindTpl,
            String.append_assoc]
      · refine ⟨rfl, Or.inr (Or.inl ⟨t, x, rfl, hk⟩), fun hn => (by cases hn), ?_, ?_⟩
        · intro t2 x2 ht _
          cases ht
          simp [InvalidBindError.Error, ValueOf, Value.Kind, hk, hki, Value.Typ, bindTpl,
            hlit]
        · intro t2 x2 ht hk2
          cases ht
          exact absurd hk2 hk

/-- The witness of C18: the three destinations of the test of `Bind`, that is
nil, the string "test" and a nil `*string`, with their messages. -/
theorem C18_invalid_bind_message_witness :
    (InvalidBindError.mk (ValueOf .nil)).Error = .ok "Store: Bind(nil)" ∧
      (InvalidBindError.mk (ValueOf (str "test"))).Error
        = .ok "Store: Bind(non-pointer string)" ∧
      (InvalidBindError.mk (ValueOf (ptrTo tString 0))).Error
        = .ok "Store: Bind(*string pointer is nil)" :=
  ⟨(C18_invalid_bind_message testStore (str "test") .nil testHeap testHeap
      { Val := ValueOf .nil } rfl).2.2.1 rfl,
   (C18_invalid_bind_message testStore (str "test") (str "test") testHeap testHeap
      { Val := ValueOf (str "test") } rfl).2.2.2.1 _ _ rfl (by decide),
   ((C18_invalid_bind_message testStore (str "test") (ptrTo tString 0) testHeap testHeap
      { Val := ValueOf (ptrTo tString 0) } rfl).2.2.2.2 _ _ rfl (by decide)).2⟩

/-- The counterexample to C18: for the string "test" as destination `Bind`
returns an `InvalidBindError` whose message is
`Store: Bind(non-pointer string)`, without the words "of type". -/
theorem C18_non_pointer_message :
    (testStore.Bind (str "test") (str "test") testHeap).map Prod.fst
        = .ok (some (.invalidBind { Val := ValueOf (str "test") })) ∧
      (InvalidBindError.mk (ValueOf (str "test"))).Error
        = .ok "Store: Bind(non-pointer string)" ∧
      (InvalidBindError.mk (ValueOf (str "test"))).Error
        ≠ .ok "Store: Bind(non-pointer of type string)" := by
  decide

/-! ## The reads and the store variable -/

theorem writeWords_outside : ∀ (ws : List Word) (sl : Nat → Word) (a b : Nat),
    (b < a ∨ a + ws.length ≤ b) → writeWords sl a ws b = sl b
  | [], _, _, _, _ => rfl
  | w :: ws, sl, a, b, h => by
      have h1 : b < a + 1 ∨ a + 1 + ws.length ≤ b := by
        simp only [List.length_cons] at h
        omega
      have h2 : ¬ b = a := by
        simp only [List.length_cons] at h
        omega
      simp only [writeWords]
      rw [writeWords_outside ws _ (a + 1) b h1]
      simp [h2]

theorem wordsAt_length (T : GoType) (g : GoValue) : (wordsAt T g).length ≤ T.size := by
  unfold wordsAt
  split
  · rename_i hk
    cases T <;> simp [GoType.Kind] at hk <;> simp [GoType.size]
  · cases g with
    | nil => simp
    | val t d => simp [List.length_take]

theorem mset_writes {m m1 : Memory} {v x : Value} (hs : m.Set v x = .ok m1) :
    ∃ T a ws, v = .var T a ∧ ws.length ≤ T.size ∧
      m1 = { m with slots := writeWords m.slots a ws } := by
  unfold Memory.Set at hs
  split at hs
  · cases hs
  · cases hs
  · rename_i T a
    split at hs
    · cases hs
    · split at hs
      · cases hs
        exact ⟨T, a, _, rfl, wordsAt_length _ _, rfl⟩
      · split at hs
        · cases hs
          exact ⟨T, a, _, rfl, wordsAt_length _ _, rfl⟩
        · cases hs

theorem melem_var {m : Memory} {d : GoValue} {T : GoType} {a : Nat}
    (he : m.Elem (ValueOf d) = .ok (.var T a)) (hk : (ValueOf d).Kind = .Ptr) :
    ∃ t x, d = .val t x ∧ t.Elem = some T ∧ x.addr = a := by
  cases d with
  | nil => simp [ValueOf, Value.Kind] at hk
  | val t x =>
      refine ⟨t, x, rfl, ?_⟩
      simp only [ValueOf, Value.Kind] at hk
      simp only [ValueOf, Memory.Elem, Value.Kind, hk, Memory.load] at he
      split at he
      · rename_i e he2
        split at he
        · cases he
        · cases he
          exact ⟨he2, rfl⟩
      · cases he

/-- A call of `Bind` that returns an error leaves the memory as it is. -/
theorem mbind_error {m m1 : Memory} {p : Nat} {k d : GoValue} {e : BindError}
    (hb : m.Bind p k d = .ok (some e, m1)) : m1 = m := by
  unfold Memory.Bind at hb
  dsimp only at hb
  repeat' split at hb
  all_goals (cases hb; try rfl)

/-- A call of `Bind` that returns no error has a pointer as destination and
has written slots of the variable it points to, and nothing else. -/
theorem mbind_success {m m1 : Memory} {p : Nat} {k d : GoValue}
    (hb : m.Bind p k d = .ok (none, m1)) :
    ∃ t x T ws, d = .val t x ∧ t.Elem = some T ∧ ws.length ≤ T.size ∧
      m1 = { m with slots := writeWords m.slots x.addr ws } := by
  unfold Memory.Bind at hb
  dsimp only at hb
  split at hb
  · cases hb
  · split at hb
    · cases hb
    · split at hb
      · cases hb
      · split at hb
        · cases hb
        · cases hb
        · rename_i hnil
          have hk : (ValueOf d).Kind = .Ptr := by
            by_contra hk
            simp [hk] at hnil
          split at hb
          · cases hb
          · rename_i el hel
            split at hb
            · repeat' split at hb
              all_goals cases hb
            · split at hb
              · cases hb
              · rename_i m2 hset
                cases hb
                obtain ⟨T, a, ws, hv, hl, hm⟩ := mset_writes hset
                subst hv
                obtain ⟨t, x, hd, hT, ha⟩ := melem_var hel hk
                exact ⟨t, x, T, ws, hd, hT, hl, by rw [ha]; exact hm⟩

/-- On a receiver that holds the store s, `Bind` on the memory of slots returns
the error, or panics, as `Bind` on the store s does. -/
theorem mbind_agrees (m : Memory) (p : Nat) (s : Store) (k d : GoValue) (h : Heap)
    (hs : m.storeAt p = some s) :
    (m.Bind p k d).map Prod.fst = (s.Bind k d h).map Prod.fst := by
  unfold Memory.Bind Store.Bind
  rw [hs]
  dsimp only
  cases hg : s.Get k with
  | error e => rfl
  | ok r =>
      obtain ⟨val, ok⟩ := r
      cases ok with
      | false => rfl
      | true =>
          cases d with
          | nil => simp [ValueOf, Value.Kind, Except.map]
          | val t x =>
              by_cases hk : t.Kind = .Ptr
              · by_cases ha : x.addr = 0
                · simp [ValueOf, Value.Kind, hk, Memory.IsNil, Value.IsNil, Memory.load,
                    Value.load, ha, Except.map]
                · have hb : (x.addr == 0) = false := by simp [ha]
                  simp only [ValueOf, Value.Kind, hk, Memory.IsNil, Value.IsNil, Memory.load,
                    Value.load, hb, Memory.Elem, Value.Elem, ha]
                  cases t.Elem with
                  | none =>
                      cases val with
                      | nil => simp [Value.Kind, Value.Typ, Memory.Set, Value.Set, Except.map]
                      | val u y =>
                          by_cases hq : Kind.Invalid = u.Kind <;>
                            simp [hq, Value.Kind, Value.Typ, Memory.Set, Value.Set, Except.map]
                  | some e =>
                      cases val with
                      | nil =>
                          by_cases hq : e.Kind = Kind.Invalid <;>
                            simp [hq, Value.Kind, Value.Typ, Memory.Set, Value.Set, Except.map]
                      | val u y =>
                          simp only [Value.Kind, Value.Typ, Memory.Set, Value.Set]
                          by_cases hkk : e.Kind = u.Kind
                          · simp only [hkk, ne_eq, not_true_eq_false, if_false]
                            by_cases hd : directlyAssignable e u = true
                            · simp [hd, Except.map]
                            · by_cases hi : u.Kind = .Interface
                              · simp [hd, hi, Except.map]
                              · simp [hd, hi, Except.map]
                          · simp [hkk, Except.map]
              · simp [ValueOf, Value.Kind, hk, Except.map]

theorem storeAt_congr {m m1 : Memory} {p : Nat} (hm : m1.maps = m.maps)
    (hp : m1.slots p = m.slots p) : m1.storeAt p = m.storeAt p := by
  simp only [Memory.storeAt, hm, hp]

/-- Claim C19, amended: for every memory, receiver p, key k and destination
d: a call of `Get(k)` or `MustGet(k)` that returns leaves the memory as it
is, and so does a call of `Bind(k, d)` that returns an error.  A call of
`Bind(k, d)` that returns no error has a pointer to a variable of some type
T as destination and changes no map object and no slot outside that variable;
so when the slot of the `Store` lies outside that variable, that is, when the
destination points neither to the `Store` itself nor to a variable that
contains it, the receiver holds the same store and every key has the same
`Get` result as before. -/
theorem C19_reads_keep_store (m : Memory) (p : Nat) (k d : GoValue) :
    (∀ r m1, m.Get p k = .ok (r, m1) → m1 = m) ∧
      (∀ r m1, m.MustGet p k = .ok (r, m1) → m1 = m) ∧
      (∀ e m1, m.Bind p k d = .ok (some e, m1) → m1 = m) ∧
      (∀ m1, m.Bind p k d = .ok (none, m1) →
        ∃ t x T, d = .val t x ∧ t.Elem = some T ∧ m1.maps = m.maps ∧
          (∀ b, b < x.addr ∨ x.addr + T.size ≤ b → m1.slots b = m.slots b) ∧
          (p < x.addr ∨ x.addr + T.size ≤ p →
            m1.storeAt p = m.storeAt p ∧
              ∀ k2, (m1.Get p k2).map Prod.fst = (m.Get p k2).map Prod.fst)) := by
  refine ⟨?_, ?_, ?_, ?_⟩
  · intro r m1 h
    unfold Memory.Get at h
    split at h
    · cases h
    · split at h <;> cases h
      rfl
  · intro r m1 h
    unfold Memory.MustGet at h
    split at h
    · cases h
    · split at h <;> cases h
      rfl
  · intro e m1 h
    exact mbind_error h
  · intro m1 h
    obtain ⟨t, x, T, ws, hd, hT, hl, hm⟩ := mbind_success h
    have hslots : ∀ b, b < x.addr ∨ x.addr + T.size ≤ b → m1.slots b = m.slots b := by
      intro b hb
      rw [hm]
      exact writeWords_outside ws m.slots x.addr b (by omega)
    have hmaps : m1.maps = m.maps := by rw [hm]
    refine ⟨t, x, T, hd, hT, hmaps, hslots, fun hp => ?_⟩
    have hst : m1.storeAt p = m.storeAt p := storeAt_congr hmaps (hslots p hp)
    refine ⟨hst, fun k2 => ?_⟩
    simp only [Memory.Get, hst]
    cases m.storeAt p with
    | none => rfl
    | some s2 =>
        simp only
        cases s2.Get k2 <;> rfl

/-- The witness of C19: the receiver is `&o.S` at address 21,
`Bind("n", &o.N)` with the destination at address 20 returns no error,
writes the int 7 to `o.N`, and the receiver holds the same store
afterwards. -/
theorem C19_reads_keep_store_witness :
    (aliasMemory.Bind 21 (str "n") (ptrTo tInt 20)).map Prod.fst = .ok none ∧
      (aliasMemory.Bind 21 (str "n") (ptrTo tInt 20)).map (fun r => r.2.slots 20)
        = .ok (.prim (.int 7)) ∧
      (aliasMemory.write tInt 20 (int 7)).storeAt 21 = aliasMemory.storeAt 21 := by
  refine ⟨by decide, by decide, ?_⟩
  obtain ⟨t, x, T, hd, hT, _, _, h5⟩ :=
    (C19_reads_keep_store aliasMemory 21 (str "n") (ptrTo tInt 20)).2.2.2
      (aliasMemory.write tInt 20 (int 7)) rfl
  cases hd
  cases hT
  exact (h5 (Or.inr (by decide))).1

/-- The counterexample to C19.  The store `s` at address 10 holds a second
`Store` under "k": `s.Bind("k", &s)` returns no error and overwrites `s`, so
`Get("y")`, which returned `(2, true)`, returns `(nil, false)`.  The store
`o.S` at address 21 holds an `Outer` under "k": `o.S.Bind("k", &o)`, whose
destination is the address 20 of the enclosing variable, returns no error
and overwrites `o` with its field `S`, so `Get("y")` changes likewise. -/
theorem C19_bind_into_store :
    (storeVal 2).wellFormed = true ∧ (outerVal 9 2).wellFormed = true ∧
      (aliasMemory.Get 10 (str "y")).map Prod.fst = .ok (int 2, true) ∧
      (aliasMemory.Bind 10 (str "k") (ptrTo tStore 10)).map Prod.fst = .ok none ∧
      (aliasMemory.Bind 10 (str "k") (ptrTo tStore 10)).bind
          (fun r => (r.2.Get 10 (str "y")).map Prod.fst) = .ok (.nil, false) ∧
      (aliasMemory.Get 21 (str "y")).map Prod.fst = .ok (int 2, true) ∧
      (aliasMemory.Bind 21 (str "k") (ptrTo tOuter 20)).map Prod.fst = .ok none ∧
      (aliasMemory.Bind 21 (str "k") (ptrTo tOuter 20)).bind
          (fun r => (r.2.Get 21 (str "y")).map Prod.fst) = .ok (.nil, false) := by
  decide

end store
